import Mathlib

/-!
Verification of the Pennyworth Trello workflow layer
(`src/trello_workflows.py`, class `TrelloWorkflow`).

Strings are modelled as `List Char`; Python `str.strip`, `str.lower`,
`str.split(sep, 1)` are embedded as executable functions on character
lists.  The Trello backend is modelled as an environment of fallible
calls (`Except` values / functions), the board- and list-caches as an
explicit state record, and each workflow method as a function from
environment, arguments and state to a uniform result record plus the
new state, mirroring the Python method body line by line.
-/

namespace Pennyworth

abbrev Str := List Char

abbrev Err := Str

/-- Python `str.lower()` (ASCII case folding, as used on command words
and entity names). -/
def lowerStr (s : Str) : Str := s.map Char.toLower

/-- Python `str.lstrip()`: drop leading whitespace. -/
def stripL (s : Str) : Str := s.dropWhile Char.isWhitespace

/-- Python `str.rstrip()`: drop trailing whitespace. -/
def stripR (s : Str) : Str := (s.reverse.dropWhile Char.isWhitespace).reverse

/-- Python `str.strip()`: drop whitespace at both ends. -/
def strip (s : Str) : Str := stripR (stripL s)

/-- Boolean prefix test on character lists. -/
def isPre : Str → Str → Bool
  | [], _ => true
  | _ :: _, [] => false
  | a :: s, b :: t => a == b && isPre s t

/-- Python `s.split(sep, 1)` for a non-empty separator `sep`, in the
case where the separator occurs: `some (before, after)` splits at the
first occurrence of `sep`; `none` means `sep` does not occur in `s`
(Python would return the one-element list `[s]`). -/
def splitOnce (sep : Str) : Str → Option (Str × Str)
  | [] => if isPre sep [] then some ([], []) else none
  | a :: s =>
    if isPre sep (a :: s) then some ([], (a :: s).drop sep.length)
    else
      match splitOnce sep s with
      | some (p, q) => some (a :: p, q)
      | none => none

/-- Python `s.split(' ', 1)`: first component is the text before the
first space character (the whole string if there is no space), second
component is the rest when a space exists. -/
def splitFirstSpace (s : Str) : Str × Option Str :=
  match splitOnce [' '] s with
  | some (p, q) => (p, some q)
  | none => (s, none)

/-- The argument dictionary built by `TrelloWorkflow.parse_command`:
each key of the Python `args` dict is an optional field (`none` =
key absent). -/
structure Args where
  card_title : Option Str := none
  list_name : Option Str := none
  board_name : Option Str := none
  card_id : Option Str := none
  comment_text : Option Str := none
deriving DecidableEq

/-- The literal separator `" in "` of the `create` sub-grammar. -/
def sepIn : Str := (" in ").toList

/-- The literal separator `" to "` of the `move` sub-grammar. -/
def sepTo : Str := (" to ").toList

/-- Embedding of `TrelloWorkflow.parse_command` (src/trello_workflows.py:426-471):
strip the input, split on the first `' '` into a lower-cased command
word and a remainder, then apply the per-command sub-grammar. -/
def parse_command (command_text : Str) : Str × Args :=
  let parts := splitFirstSpace (strip command_text)
  let command := lowerStr parts.1
  match parts.2 with
  | none => (command, {})
  | some rest =>
    let remainder := strip rest
    if command = ("create").toList then
      match splitOnce sepIn remainder with
      | some (card_title, list_name) =>
        (command, { card_title := some (strip card_title),
                    list_name := some (strip list_name) })
      | none =>
        (command, { card_title := some remainder,
                    list_name := some (("To Do").toList) })
    else if command = ("lists").toList then
      (command, { board_name := some remainder })
    else if command = ("comment").toList then
      match splitFirstSpace remainder with
      | (cid, some rest2) =>
        (command, { card_id := some (strip cid),
                    comment_text := some (strip rest2) })
      | (_, none) => (command, {})
    else if command = ("move").toList then
      match splitOnce sepTo remainder with
      | some (cid, list_name) =>
        (command, { card_id := some (strip cid),
                    list_name := some (strip list_name) })
      | none => (command, {})
    else (command, {})

example : parse_command (("create Fix login bug in Bugs").toList)
    = (("create").toList,
       { card_title := some (("Fix login bug").toList),
         list_name := some (("Bugs").toList) }) := by decide

example : parse_command (("create Buy milk").toList)
    = (("create").toList,
       { card_title := some (("Buy milk").toList),
         list_name := some (("To Do").toList) }) := by decide

example : parse_command (("move abc123 to Done").toList)
    = (("move").toList,
       { card_id := some (("abc123").toList),
         list_name := some (("Done").toList) }) := by decide

example : parse_command (("MOVE x").toList)
    = (("move").toList, {}) := by decide

example : parse_command (("boards now").toList)
    = (("boards").toList, {}) := by decide

example : parse_command (("comment c1").toList)
    = (("comment").toList, {}) := by decide

example : parse_command (("comment c1  hello there").toList)
    = (("comment").toList,
       { card_id := some (("c1").toList),
         comment_text := some (("hello there").toList) }) := by decide

example : parse_command ([]) = ([], {}) := by decide

/-! ## The Trello backend, the caches and the workflow operations -/

instance {ε α : Type} [DecidableEq ε] [DecidableEq α] :
    DecidableEq (Except ε α) := fun x y =>
  match x, y with
  | .ok a, .ok b =>
    if h : a = b then .isTrue (by rw [h]) else .isFalse (by simp [h])
  | .error a, .error b =>
    if h : a = b then .isTrue (by rw [h]) else .isFalse (by simp [h])
  | .ok _, .error _ => .isFalse (by simp)
  | .error _, .ok _ => .isFalse (by simp)

/-- A Trello label (`board.get_labels()` element). -/
structure Label where
  id : Str
  name : Str
deriving DecidableEq

/-- A Trello card as seen by this layer.  `due_date` is the raw string
the backend reports (`None` or possibly empty). -/
structure Card where
  id : Str
  name : Str
  url : Str
  board_id : Str
  due_date : Option Str := none
deriving DecidableEq

/-- A Trello list; `cards` models `lst.list_cards()`, which can raise. -/
structure TList where
  id : Str
  name : Str
  cards : Except Err (List Card) := Except.ok []
deriving DecidableEq

/-- A Trello board; `lists` models `board.list_lists()` and `labels`
models `board.get_labels()`, both of which can raise. -/
structure Board where
  id : Str
  name : Str
  lists : Except Err (List TList) := Except.ok []
  labels : Except Err (List Label) := Except.ok []
deriving DecidableEq

/-- The Trello client (`self.client`): every call either returns a
value or raises, modelled by `Except`.  `get_card` returns `none` for
a card id that does not exist in the backend. -/
structure Env where
  list_boards : Except Err (List Board)
  get_card : Str → Except Err (Option Card)
  get_board_by_id : Str → Except Err Board
  add_card : Str → Str → Str → Except Err Card
  add_board : Str → Str → Except Err Board
  add_list : Str → Str → Except Err TList
  set_due : Str → Str → Except Err Unit
  add_label : Str → Str → Except Err Unit
  change_list : Str → Str → Except Err Unit
  add_comment : Str → Str → Except Err Unit

/-- The workflow object's mutable state: `self._cache['boards']`,
`self._cache['lists']` and `self.channel_mapping`, each a dict
modelled as an association list (most recent binding first). -/
structure St where
  boards : List (Str × Board) := []
  lists : List (Str × TList) := []
  channel_mapping : List (Str × Str) := []
deriving DecidableEq

/-- Outcome of running a method body: a normal value or a raised
exception, together with the state reached at that point (Python
cache writes made before a raise persist). -/
inductive Res (α : Type) where
  | ok : α → St → Res α
  | err : Err → St → Res α
deriving DecidableEq

/-- The uniform result dict of the workflow operations: `success` plus
the payload/`error` keys each op may set. -/
structure Result where
  success : Bool := false
  error : Option Str := none
  card_id : Option Str := none
  card_url : Option Str := none
  card_name : Option Str := none
  message : Option Str := none
  board_id : Option Str := none
  board_name : Option Str := none
  board_url : Option Str := none
  list_name : Option Str := none
  boards : Option (List (Str × Str)) := none
  lists : Option (List (Str × Str)) := none
deriving DecidableEq

/-- The `except Exception` boundary of every operation: a raised
exception becomes `{'success': False, 'error': str(e)}`. -/
def catchOp (r : Res Result) : Result × St :=
  match r with
  | .ok a st => (a, st)
  | .err e st => ({ success := false, error := some e }, st)

/-- Embedding of `TrelloWorkflow.get_board` (lines 45-67), with an explicit count
of the backend `list_boards` calls it issues (0 or 1): exact-key cache
lookup first, otherwise one backend listing, case-insensitive
first-match, caching the hit under the queried name. -/
def get_board (env : Env) (board_name : Str) (st : St) :
    Res (Option Board) × Nat :=
  match st.boards.lookup board_name with
  | some b => (.ok (some b) st, 0)
  | none =>
    match env.list_boards with
    | .error e => (.err e st, 1)
    | .ok bs =>
      match bs.find? (fun b => lowerStr b.name == lowerStr board_name) with
      | some b =>
        (.ok (some b) { st with boards := (board_name, b) :: st.boards }, 1)
      | none => (.ok none st, 1)

/-- Embedding of `TrelloWorkflow.get_list` (lines 69-94): composite-key cache
lookup, then board resolution, then case-insensitive first-match over
the board's lists, caching the hit. -/
def get_list (env : Env) (board_name list_name : Str) (st : St) :
    Res (Option TList) :=
  let key := board_name ++ (":").toList ++ list_name
  match st.lists.lookup key with
  | some l => .ok (some l) st
  | none =>
    match (get_board env board_name st).1 with
    | .err e st' => .err e st'
    | .ok none st' => .ok none st'
    | .ok (some b) st' =>
      match b.lists with
      | .error e => .err e st'
      | .ok ls =>
        match ls.find? (fun l => lowerStr l.name == lowerStr list_name) with
        | some l => .ok (some l) { st' with lists := (key, l) :: st'.lists }
        | none => .ok none st'

/-- Attach every available label whose name matches `label_name`
case-insensitively (the inner `for label in available_labels` loop of
`create_card`; no break, so all matches are attached). -/
def addMatchingLabels (env : Env) (cid : Str) (label_name : Str) :
    List Label → St → Res Unit
  | [], st => .ok () st
  | lab :: rest, st =>
    if lowerStr lab.name == lowerStr label_name then
      match env.add_label cid lab.id with
      | .error e => .err e st
      | .ok _ => addMatchingLabels env cid label_name rest st
    else addMatchingLabels env cid label_name rest st

/-- The outer `for label_name in labels` loop of `create_card`. -/
def addLabels (env : Env) (cid : Str) (avail : List Label) :
    List Str → St → Res Unit
  | [], st => .ok () st
  | n :: ns, st =>
    match addMatchingLabels env cid n avail st with
    | .err e st' => .err e st'
    | .ok _ st' => addLabels env cid avail ns st'

/-- Leap-year test of the proleptic Gregorian calendar (as used by
Python's `datetime`). -/
def isLeap (y : Nat) : Bool :=
  y % 4 == 0 && (y % 100 != 0 || y % 400 == 0)

/-- Number of days in a month, for `datetime`'s day-of-month check. -/
def daysInMonth (y m : Nat) : Nat :=
  if m = 2 then (if isLeap y then 29 else 28)
  else if m = 4 ∨ m = 6 ∨ m = 9 ∨ m = 11 then 30
  else 31

/-- A Python `datetime` value (naive). -/
structure DateTime where
  year : Nat
  month : Nat
  day : Nat
  hour : Nat := 0
  minute : Nat := 0
  second : Nat := 0
  micro : Nat := 0
deriving DecidableEq

/-- Python `datetime` comparison: lexicographic on the fields. -/
def dtLe (a b : DateTime) : Bool :=
  if a.year ≠ b.year then a.year < b.year
  else if a.month ≠ b.month then a.month < b.month
  else if a.day ≠ b.day then a.day < b.day
  else if a.hour ≠ b.hour then a.hour < b.hour
  else if a.minute ≠ b.minute then a.minute < b.minute
  else if a.second ≠ b.second then a.second < b.second
  else a.micro ≤ b.micro

/-- Take up to `n` leading decimal digits. -/
def takeDigits : Nat → Str → (Str × Str)
  | 0, s => ([], s)
  | _ + 1, [] => ([], [])
  | n + 1, c :: s =>
    if c.isDigit then
      let (ds, r) := takeDigits n s
      (c :: ds, r)
    else ([], c :: s)

/-- Numeric value of a digit string. -/
def digitsVal (ds : Str) : Nat :=
  ds.foldl (fun a c => a * 10 + (c.toNat - 48)) 0

/-- Parse a run of 1 to `maxLen` digits (as `strptime`'s numeric
directives do), returning value, digit count and the rest. -/
def parseField (maxLen : Nat) (s : Str) : Option (Nat × Nat × Str) :=
  match takeDigits maxLen s with
  | ([], _) => none
  | (ds, r) => some (digitsVal ds, ds.length, r)

/-- Match one literal character. -/
def expectChar (c : Char) : Str → Option Str
  | [] => none
  | a :: s => if a = c then some s else none

/-- Embedding of `datetime.strptime(s, "%Y-%m-%dT%H:%M:%S.%fZ")` (line 357):
fixed-format parse, `none` models the `ValueError` branch.  `%f` is
right-padded to microseconds; the field values must form a valid
`datetime`. -/
def parseDue (s : Str) : Option DateTime :=
  match parseField 4 s with
  | none => none
  | some (y, _, r1) =>
  match expectChar '-' r1 with
  | none => none
  | some r2 =>
  match parseField 2 r2 with
  | none => none
  | some (mo, _, r3) =>
  match expectChar '-' r3 with
  | none => none
  | some r4 =>
  match parseField 2 r4 with
  | none => none
  | some (d, _, r5) =>
  match expectChar 'T' r5 with
  | none => none
  | some r6 =>
  match parseField 2 r6 with
  | none => none
  | some (hh, _, r7) =>
  match expectChar ':' r7 with
  | none => none
  | some r8 =>
  match parseField 2 r8 with
  | none => none
  | some (mi, _, r9) =>
  match expectChar ':' r9 with
  | none => none
  | some r10 =>
  match parseField 2 r10 with
  | none => none
  | some (ss, _, r11) =>
  match expectChar '.' r11 with
  | none => none
  | some r12 =>
  match parseField 6 r12 with
  | none => none
  | some (f, flen, r13) =>
  match expectChar 'Z' r13 with
  | none => none
  | some r14 =>
  if r14 = [] ∧ 1 ≤ y ∧ y ≤ 9999 ∧ 1 ≤ mo ∧ mo ≤ 12 ∧
     1 ≤ d ∧ d ≤ daysInMonth y mo ∧ hh ≤ 23 ∧ mi ≤ 59 ∧ ss ≤ 59 then
    some { year := y, month := mo, day := d, hour := hh, minute := mi,
           second := ss, micro := f * 10 ^ (6 - flen) }
  else none

/-- Embedding of `datetime.strptime(s, "%Y-%m-%d")` (line 136), used by
`create_card` for the optional due date. -/
def parseYMD (s : Str) : Option (Nat × Nat × Nat) :=
  match parseField 4 s with
  | none => none
  | some (y, _, r1) =>
  match expectChar '-' r1 with
  | none => none
  | some r2 =>
  match parseField 2 r2 with
  | none => none
  | some (mo, _, r3) =>
  match expectChar '-' r3 with
  | none => none
  | some r4 =>
  match parseField 2 r4 with
  | none => none
  | some (d, _, r5) =>
  if r5 = [] ∧ 1 ≤ y ∧ y ≤ 9999 ∧ 1 ≤ mo ∧ mo ≤ 12 ∧
     1 ≤ d ∧ d ≤ daysInMonth y mo then
    some (y, mo, d)
  else none

/-- Civil date to serial day number (proleptic Gregorian). -/
def toRata (y m d : Int) : Int :=
  let y' := if m ≤ 2 then y - 1 else y
  let era := (if 0 ≤ y' then y' else y' - 399) / 400
  let yoe := y' - era * 400
  let mp := (m + 9) % 12
  let doy := (153 * mp + 2) / 5 + d - 1
  let doe := yoe * 365 + yoe / 4 - yoe / 100 + doy
  era * 146097 + doe - 719468

/-- Serial day number back to a civil date. -/
def fromRata (z : Int) : Int × Int × Int :=
  let z' := z + 719468
  let era := (if 0 ≤ z' then z' else z' - 146096) / 146097
  let doe := z' - era * 146097
  let yoe := (doe - doe / 1460 + doe / 36524 - doe / 146096) / 365
  let y := yoe + era * 400
  let doy := doe - (365 * yoe + yoe / 4 - yoe / 100)
  let mp := (5 * doy + 2) / 153
  let d := doy - (153 * mp + 2) / 5 + 1
  let m := mp + (if mp < 10 then 3 else -9)
  (if m ≤ 2 then y + 1 else y, m, d)

/-- Embedding of `today + timedelta(days=k)` (line 338): calendar day shift, time
of day unchanged. -/
def addDays (t : DateTime) (k : Int) : DateTime :=
  let r := toRata (Int.ofNat t.year) (Int.ofNat t.month) (Int.ofNat t.day) + k
  let c := fromRata r
  { t with year := c.1.toNat, month := c.2.1.toNat, day := c.2.2.toNat }

example : addDays { year := 2026, month := 10, day := 31 } 2
    = { year := 2026, month := 11, day := 2 } := by decide

example : addDays { year := 2024, month := 2, day := 28, hour := 5 } 1
    = { year := 2024, month := 2, day := 29, hour := 5 } := by decide

example : parseDue (("2026-10-13T09:30:00.000Z").toList)
    = some { year := 2026, month := 10, day := 13, hour := 9,
             minute := 30 } := by decide

example : parseDue (("2026-13-01T00:00:00.000Z").toList) = none := by decide

example : parseDue (("garbage").toList) = none := by decide

/-- Argument of `card.set_due(due_datetime.strftime("%Y-%m-%dT%H:%M:%S.000Z"))`
(line 137): the formatted date string sent to the backend. -/
def pad2 (n : Nat) : Str :=
  if n < 10 then '0' :: (Nat.toDigits 10 n) else Nat.toDigits 10 n

def pad4 (n : Nat) : Str :=
  let s := Nat.toDigits 10 n
  List.replicate (4 - s.length) '0' ++ s

def formatDue (y m d : Nat) : Str :=
  pad4 y ++ ('-' :: pad2 m) ++ ('-' :: pad2 d) ++ (("T00:00:00.000Z").toList)

example : formatDue 2026 3 7 = ("2026-03-07T00:00:00.000Z").toList := by
  decide

/-- The `if labels and card:` block of `create_card` (lines 123-130):
re-resolve the board, fetch its labels and attach every
case-insensitive match.  When the board resolves to `None`, Python
raises `AttributeError` on `board.get_labels()`. -/
def labelsStep (env : Env) (board_name : Str) (labels : Option (List Str))
    (cardId : Str) (st : St) : Res Unit :=
  if (labels.getD []).isEmpty then .ok () st
  else
    match (get_board env board_name st).1 with
    | .err e st' => .err e st'
    | .ok none st' =>
      .err (("'NoneType' object has no attribute 'get_labels'").toList) st'
    | .ok (some b) st' =>
      match b.labels with
      | .error e => .err e st'
      | .ok avail => addLabels env cardId avail (labels.getD []) st'

/-- The `if due_date and card:` block of `create_card` (lines
132-139): parse `YYYY-MM-DD`; on failure only log; on success call
`set_due`, whose exception propagates. -/
def dueStep (env : Env) (due_date : Option Str) (cardId : Str)
    (st : St) : Res Unit :=
  if (due_date.getD []).isEmpty then .ok () st
  else
    match parseYMD (due_date.getD []) with
    | none => .ok () st
    | some (y, mo, d) =>
      match env.set_due cardId (formatDue y mo d) with
      | .error e => .err e st
      | .ok _ => .ok () st

/-- Body of `TrelloWorkflow.create_card` (lines 114-147), i.e. the
inside of its `try` block. -/
def create_cardB (env : Env) (board_name list_name title : Str)
    (description : Option Str) (labels : Option (List Str))
    (due_date : Option Str) (st : St) : Res Result :=
  match get_list env board_name list_name st with
  | .err e st' => .err e st'
  | .ok none st' =>
    .ok { success := false,
          error := some ((("List '").toList ++ list_name ++
            ("' not found on board '").toList ++ board_name ++
            ("'").toList) : Str) } st'
  | .ok (some l) st' =>
    match env.add_card l.id title (description.getD []) with
    | .error e => .err e st'
    | .ok card =>
      match labelsStep env board_name labels card.id st' with
      | .err e st2 => .err e st2
      | .ok _ st2 =>
        match dueStep env due_date card.id st2 with
        | .err e st3 => .err e st3
        | .ok _ st3 =>
          .ok { success := true, card_id := some card.id,
                card_url := some card.url,
                card_name := some card.name } st3

/-- Embedding of `TrelloWorkflow.create_card` with its `except` boundary. -/
def create_card (env : Env) (board_name list_name title : Str)
    (description : Option Str) (labels : Option (List Str))
    (due_date : Option Str) (st : St) : Result × St :=
  catchOp (create_cardB env board_name list_name title description labels
    due_date st)

/-- Body of `TrelloWorkflow.move_card` (lines 164-186). -/
def move_cardB (env : Env) (card_id target_list_name : Str) (st : St) :
    Res Result :=
  match env.get_card card_id with
  | .error e => .err e st
  | .ok none =>
    .ok { success := false,
          error := some ((("Card with ID '").toList ++ card_id ++
            ("' not found").toList) : Str) } st
  | .ok (some card) =>
    match env.get_board_by_id card.board_id with
    | .error e => .err e st
    | .ok board =>
      match board.lists with
      | .error e => .err e st
      | .ok ls =>
        match ls.find?
            (fun l => lowerStr l.name == lowerStr target_list_name) with
        | none =>
          .ok { success := false,
                error := some ((("List '").toList ++ target_list_name ++
                  ("' not found").toList) : Str) } st
        | some l =>
          match env.change_list card.id l.id with
          | .error e => .err e st
          | .ok _ =>
            .ok { success := true,
                  message := some ((("Card moved to ").toList ++
                    target_list_name) : Str) } st

/-- Embedding of `TrelloWorkflow.move_card` with its `except` boundary. -/
def move_card (env : Env) (card_id target_list_name : Str) (st : St) :
    Result × St :=
  catchOp (move_cardB env card_id target_list_name st)

/-- Body of `TrelloWorkflow.create_board` (lines 203-216). -/
def create_boardB (env : Env) (board_name : Str)
    (description : Option Str) (st : St) : Res Result :=
  match env.add_board board_name (description.getD []) with
  | .error e => .err e st
  | .ok b =>
    .ok { success := true, board_id := some b.id,
          board_name := some b.name,
          board_url := some ((("https://trello.com/b/").toList ++ b.id) :
            Str) }
      { st with boards := (board_name, b) :: st.boards }

/-- Embedding of `TrelloWorkflow.create_board` with its `except` boundary. -/
def create_board (env : Env) (board_name : Str) (description : Option Str)
    (st : St) : Result × St :=
  catchOp (create_boardB env board_name description st)

/-- Body of `TrelloWorkflow.create_list` (lines 233-246). -/
def create_listB (env : Env) (board_name list_name : Str) (st : St) :
    Res Result :=
  match (get_board env board_name st).1 with
  | .err e st' => .err e st'
  | .ok none st' =>
    .ok { success := false,
          error := some ((("Board '").toList ++ board_name ++
            ("' not found").toList) : Str) } st'
  | .ok (some b) st' =>
    match env.add_list b.id list_name with
    | .error e => .err e st'
    | .ok l =>
      .ok { success := true, list_name := some list_name }
        { st' with lists :=
            (board_name ++ (":").toList ++ list_name, l) :: st'.lists }

/-- Embedding of `TrelloWorkflow.create_list` with its `except` boundary. -/
def create_list (env : Env) (board_name list_name : Str) (st : St) :
    Result × St :=
  catchOp (create_listB env board_name list_name st)

/-- Body of `TrelloWorkflow.add_comment` (lines 263-271). -/
def add_commentB (env : Env) (card_id comment : Str) (st : St) :
    Res Result :=
  match env.get_card card_id with
  | .error e => .err e st
  | .ok none =>
    .ok { success := false,
          error := some ((("Card with ID '").toList ++ card_id ++
            ("' not found").toList) : Str) } st
  | .ok (some card) =>
    match env.add_comment card.id comment with
    | .error e => .err e st
    | .ok _ =>
      .ok { success := true, message := some (("Comment added").toList) } st

/-- Embedding of `TrelloWorkflow.add_comment` with its `except` boundary. -/
def add_comment (env : Env) (card_id comment : Str) (st : St) :
    Result × St :=
  catchOp (add_commentB env card_id comment st)

/-- Body of `TrelloWorkflow.get_boards` (lines 387-392). -/
def get_boardsB (env : Env) (st : St) : Res Result :=
  match env.list_boards with
  | .error e => .err e st
  | .ok bs =>
    .ok { success := true,
          boards := some (bs.map fun b => (b.name, b.id)) } st

/-- Embedding of `TrelloWorkflow.get_boards` with its `except` boundary. -/
def get_boards (env : Env) (st : St) : Result × St :=
  catchOp (get_boardsB env st)

/-- Body of `TrelloWorkflow.get_lists` (lines 407-421). -/
def get_listsB (env : Env) (board_name : Str) (st : St) : Res Result :=
  match (get_board env board_name st).1 with
  | .err e st' => .err e st'
  | .ok none st' =>
    .ok { success := false,
          error := some ((("Board '").toList ++ board_name ++
            ("' not found").toList) : Str) } st'
  | .ok (some b) st' =>
    match b.lists with
    | .error e => .err e st'
    | .ok ls =>
      .ok { success := true, board_name := some b.name,
            lists := some (ls.map fun l => (l.name, l.id)) } st'

/-- Embedding of `TrelloWorkflow.get_lists` with its `except` boundary. -/
def get_lists (env : Env) (board_name : Str) (st : St) : Result × St :=
  catchOp (get_listsB env board_name st)

/-- One entry of the list returned by `get_upcoming_due_cards`. -/
structure CardInfo where
  card_id : Str
  card_name : Str
  card_url : Str
  due_date : Str
  board_name : Str
  list_name : Str
  channel_id : Option Str
deriving DecidableEq

/-- Inner card loop of `get_upcoming_due_cards` (lines 352-371): pure
over the cards of one list; a card contributes when its due-date
string is set, parses, and the parsed date is within
`today <= due <= threshold`; a `ValueError` is caught and skipped. -/
def scanCards (st : St) (today threshold : DateTime) (bname bid lname : Str) :
    List Card → List CardInfo
  | [] => []
  | c :: cs =>
    let rest := scanCards st today threshold bname bid lname cs
    match c.due_date with
    | none => rest
    | some ds =>
      if ds.isEmpty then rest
      else
        match parseDue ds with
        | none => rest
        | some due =>
          if dtLe today due && dtLe due threshold then
            { card_id := c.id, card_name := c.name, card_url := c.url,
              due_date := ds, board_name := bname, list_name := lname,
              channel_id := st.channel_mapping.lookup bid } :: rest
          else rest

/-- List loop of the scan: `lst.list_cards()` may raise, aborting the
whole scan. -/
def scanLists (st : St) (today threshold : DateTime) (bname bid : Str) :
    List TList → Except Err (List CardInfo)
  | [] => .ok []
  | l :: ls =>
    match l.cards with
    | .error e => .error e
    | .ok cs =>
      match scanLists st today threshold bname bid ls with
      | .error e => .error e
      | .ok rest =>
        .ok (scanCards st today threshold bname bid l.name cs ++ rest)

/-- Board loop of the scan: `board.list_lists()` may raise. -/
def scanBoards (st : St) (today threshold : DateTime) :
    List Board → Except Err (List CardInfo)
  | [] => .ok []
  | b :: bs =>
    match b.lists with
    | .error e => .error e
    | .ok ls =>
      match scanLists st today threshold b.name b.id ls with
      | .error e => .error e
      | .ok infos =>
        match scanBoards st today threshold bs with
        | .error e => .error e
        | .ok rest => .ok (infos ++ rest)

/-- Body of `TrelloWorkflow.get_upcoming_due_cards` (lines 336-374):
the inside of its `try` block, with `today` passed explicitly for
`datetime.now()`. -/
def get_upcoming_due_cardsB (env : Env) (st : St) (today : DateTime)
    (days_ahead : Int) : Except Err (List CardInfo) :=
  match env.list_boards with
  | .error e => .error e
  | .ok bs => scanBoards st today (addDays today days_ahead) bs

/-- Embedding of `TrelloWorkflow.get_upcoming_due_cards` (lines 326-378): any
exception inside the scan is caught and the function returns the empty
list. -/
def get_upcoming_due_cards (env : Env) (st : St) (today : DateTime)
    (days_ahead : Int) : List CardInfo :=
  match get_upcoming_due_cardsB env st today days_ahead with
  | .error _ => []
  | .ok l => l

/-! ## Lemmas about the string helpers -/

theorem dropWhile_self_idem (p : Char → Bool) (l : Str) :
    (l.dropWhile p).dropWhile p = l.dropWhile p := by
  induction l with
  | nil => rfl
  | cons a l ih =>
    by_cases h : p a
    · simp [List.dropWhile_cons, h, ih]
    · simp [List.dropWhile_cons, h]

theorem dropWhile_append_of_ne_nil (p : Char → Bool) (x y : Str)
    (h : x.dropWhile p ≠ []) :
    (x ++ y).dropWhile p = x.dropWhile p ++ y := by
  induction x with
  | nil => exact absurd rfl h
  | cons a x ih =>
    by_cases hp : p a
    · simp only [List.dropWhile_cons, hp, if_true] at h ⊢
      simpa [List.cons_append, List.dropWhile_cons, hp] using ih h
    · simp [List.cons_append, List.dropWhile_cons, hp]

theorem dropWhile_append_of_nil (p : Char → Bool) (x y : Str)
    (h : x.dropWhile p = []) :
    (x ++ y).dropWhile p = y.dropWhile p := by
  induction x with
  | nil => rfl
  | cons a x ih =>
    by_cases hp : p a
    · simp only [List.dropWhile_cons, hp, if_true] at h
      simpa [List.cons_append, List.dropWhile_cons, hp] using ih h
    · simp [List.dropWhile_cons, hp] at h

theorem dropWhile_eq_nil_iff_all (p : Char → Bool) (l : Str) :
    l.dropWhile p = [] ↔ ∀ a ∈ l, p a := by
  induction l with
  | nil => simp
  | cons a l ih =>
    by_cases hp : p a
    · simp [List.dropWhile_cons, hp, ih]
    · simp [List.dropWhile_cons, hp]

theorem dropWhile_head_false (p : Char → Bool) (l : Str) (a : Char)
    (t : Str) (h : l.dropWhile p = a :: t) : p a = false := by
  induction l with
  | nil => simp at h
  | cons b l ih =>
    by_cases hp : p b
    · exact ih (by simpa [List.dropWhile_cons, hp] using h)
    · simp only [List.dropWhile_cons, hp, if_false] at h
      cases h
      exact Bool.of_not_eq_true hp

theorem stripL_idem (s : Str) : stripL (stripL s) = stripL s :=
  dropWhile_self_idem _ s

theorem stripR_idem (s : Str) : stripR (stripR s) = stripR s := by
  unfold stripR
  rw [List.reverse_reverse, dropWhile_self_idem]

theorem stripL_eq_nil_iff (s : Str) :
    stripL s = [] ↔ ∀ a ∈ s, a.isWhitespace := by
  simpa [stripL] using dropWhile_eq_nil_iff_all Char.isWhitespace s

theorem stripR_eq_nil_iff (s : Str) :
    stripR s = [] ↔ ∀ a ∈ s, a.isWhitespace := by
  unfold stripR
  rw [List.reverse_eq_nil_iff, dropWhile_eq_nil_iff_all]
  simp

theorem stripL_append (x y : Str) (h : stripL x ≠ []) :
    stripL (x ++ y) = stripL x ++ y :=
  dropWhile_append_of_ne_nil _ x y h

theorem stripL_append_all (x y : Str) (h : stripL x = []) :
    stripL (x ++ y) = stripL y :=
  dropWhile_append_of_nil _ x y h

theorem stripR_append (x y : Str) (h : stripR y ≠ []) :
    stripR (x ++ y) = x ++ stripR y := by
  unfold stripR at h ⊢
  rw [List.reverse_append,
    dropWhile_append_of_ne_nil _ _ _ (by simpa using h),
    List.reverse_append, List.reverse_reverse]

theorem stripR_append_all (x y : Str) (h : stripR y = []) :
    stripR (x ++ y) = stripR x := by
  unfold stripR at h ⊢
  rw [List.reverse_append,
    dropWhile_append_of_nil _ _ _ (by simpa using h)]

theorem stripR_prefix (l : Str) : stripR l <+: l := by
  have h : (l.reverse.dropWhile Char.isWhitespace) <:+ l.reverse :=
    List.dropWhile_suffix _
  simpa [stripR, List.reverse_reverse] using h.reverse

theorem stripL_stripR_comm (x : Str) :
    stripL (stripR x) = stripR (stripL x) := by
  by_cases h : stripL x = []
  · have hx : ∀ a ∈ x, a.isWhitespace := (stripL_eq_nil_iff x).1 h
    have h2 : stripR x = [] := (stripR_eq_nil_iff x).2 hx
    rw [h, h2]
    rfl
  · rcases hcase : List.dropWhile Char.isWhitespace x with _ | ⟨a, t'⟩
    · exact absurd hcase h
    · have hhead : Char.isWhitespace a = false :=
        dropWhile_head_false _ x a t' hcase
      have hdec : x.takeWhile Char.isWhitespace ++ (a :: t') = x := by
        rw [← hcase]
        exact List.takeWhile_append_dropWhile _ _
      have hwall : stripL (x.takeWhile Char.isWhitespace) = [] := by
        rw [stripL_eq_nil_iff]
        intro c hc
        exact List.mem_takeWhile_imp hc
      have htR : stripR (a :: t') ≠ [] := by
        intro hnil
        have hall := (stripR_eq_nil_iff _).1 hnil
        have hy := hall a (List.mem_cons_self a t')
        rw [hhead] at hy
        exact Bool.noConfusion hy
      have hpre : stripR (a :: t') <+: (a :: t') := stripR_prefix _
      rcases hsr : stripR (a :: t') with _ | ⟨b, r'⟩
      · exact absurd hsr htR
      · have hb : b = a := by
          rw [hsr] at hpre
          obtain ⟨u, hu⟩ := hpre
          have := congrArg List.head? hu
          simpa using this
        calc stripL (stripR x)
            = stripL (stripR (x.takeWhile Char.isWhitespace ++ (a :: t')))
              := by rw [hdec]
          _ = stripL (x.takeWhile Char.isWhitespace ++ stripR (a :: t'))
              := by rw [stripR_append _ _ htR]
          _ = stripL (stripR (a :: t')) := stripL_append_all _ _ hwall
          _ = stripR (a :: t') := by
              rw [hsr, hb]
              simp [stripL, List.dropWhile_cons, hhead]
          _ = stripR (stripL x) := by
              show _ = stripR (List.dropWhile Char.isWhitespace x)
              rw [hcase]

theorem strip_stripL (s : Str) : strip (stripL s) = strip s := by
  unfold strip
  rw [stripL_idem]

theorem strip_stripR (s : Str) : strip (stripR s) = strip s := by
  unfold strip
  rw [stripL_stripR_comm, stripR_idem, ← stripL_stripR_comm]

theorem stripL_ne_nil (s : Str) (h : strip s ≠ []) : stripL s ≠ [] := by
  intro hn
  exact h (by unfold strip; rw [hn]; rfl)

theorem stripR_ne_nil (s : Str) (h : strip s ≠ []) : stripR s ≠ [] := by
  intro hn
  apply h
  unfold strip
  rw [← stripL_stripR_comm, hn]
  rfl

theorem isPre_iff (s t : Str) : isPre s t = true ↔ s <+: t := by
  induction s generalizing t with
  | nil => simp [isPre]
  | cons a s ih =>
    cases t with
    | nil => simp [isPre]
    | cons b t =>
      simp only [isPre, Bool.and_eq_true, beq_iff_eq, ih,
        List.cons_prefix_cons]

theorem splitOnce_none_iff (sep : Str) (hs : sep ≠ []) (s : Str) :
    splitOnce sep s = none ↔ ¬ sep <:+: s := by
  induction s with
  | nil =>
    cases sep with
    | nil => exact absurd rfl hs
    | cons a sep' => simp [splitOnce, isPre]
  | cons a s ih =>
    by_cases hp : isPre sep (a :: s) = true
    · simp only [splitOnce, hp, if_true]
      have : sep <:+: a :: s := ((isPre_iff _ _).1 hp).isInfix
      simp [this]
    · simp only [splitOnce, hp, if_false]
      rw [List.infix_cons_iff]
      have hnp : ¬ sep <+: a :: s := fun hc => hp ((isPre_iff _ _).2 hc)
      rcases hsp : splitOnce sep s with _ | pq
      · have hni := ih.1 hsp
        simp [hsp, hnp, hni]
      · have hyes : sep <:+: s := by
          by_contra hni
          have hx := ih.2 hni
          rw [hsp] at hx
          exact Option.noConfusion hx
        simp [hsp, hyes]

theorem splitOnce_at_junction (sep A B : Str) (hs : sep ≠ [])
    (h : ¬ sep <:+: (A ++ sep.dropLast)) :
    splitOnce sep (A ++ sep ++ B) = some (A, B) := by
  induction A with
  | nil =>
    have hpre : isPre sep (sep ++ B) = true :=
      (isPre_iff _ _).2 (List.prefix_append _ _)
    simp only [List.nil_append]
    cases hsep : sep with
    | nil => exact absurd hsep hs
    | cons c sep' =>
      rw [← hsep]
      cases hcat : sep ++ B with
      | nil =>
        rw [hsep] at hcat
        exact absurd hcat (by simp)
      | cons d u =>
        rw [← hcat]
        have : splitOnce sep (sep ++ B)
            = some ([], (sep ++ B).drop sep.length) := by
          rw [hcat]
          simp only [splitOnce]
          rw [← hcat, hpre]
          simp
        rw [this, List.drop_left]
  | cons a A' ih =>
    have hnp : isPre sep (a :: (A' ++ sep ++ B)) ≠ true := by
      intro hp
      apply h
      have hpfx : sep <+: (a :: A') ++ sep ++ B := by
        have := (isPre_iff _ _).1 hp
        simpa using this
      have hsep2 : sep.dropLast ++ [sep.getLast hs] = sep :=
        List.dropLast_append_getLast hs
      have hpfx2 : (a :: A') ++ sep.dropLast <+: (a :: A') ++ sep ++ B := by
        refine ⟨[sep.getLast hs] ++ B, ?_⟩
        calc (a :: A') ++ sep.dropLast ++ ([sep.getLast hs] ++ B)
            = (a :: A') ++ (sep.dropLast ++ [sep.getLast hs]) ++ B := by
              simp [List.append_assoc]
          _ = (a :: A') ++ sep ++ B := by rw [hsep2]
      have hlen : sep.length ≤ ((a :: A') ++ sep.dropLast).length := by
        simp only [List.length_append, List.length_cons,
          List.length_dropLast]
        have h1 : 1 ≤ sep.length := by
          cases sep with
          | nil => exact absurd rfl hs
          | cons c s' => simp
        omega
      exact (List.prefix_of_prefix_length_le hpfx hpfx2 hlen).isInfix
    have hih : ¬ sep <:+: (A' ++ sep.dropLast) := by
      intro hc
      exact h (List.infix_cons hc)
    have heq : (a :: A') ++ sep ++ B = a :: (A' ++ sep ++ B) := by simp
    rw [heq]
    simp only [splitOnce]
    rw [if_neg hnp, ih hih]

theorem splitOnce_isSome_of_infix (sep : Str) (hs : sep ≠ []) (s : Str)
    (h : sep <:+: s) : (splitOnce sep s).isSome = true := by
  cases hsp : splitOnce sep s with
  | none => exact absurd h (by rwa [splitOnce_none_iff sep hs s] at hsp)
  | some pq => rfl

theorem splitOnce_space_cons_ne (a : Char) (s : Str) (h : ¬ a = ' ') :
    splitOnce [' '] (a :: s)
      = match splitOnce [' '] s with
        | some (p, q) => some (a :: p, q)
        | none => none := by
  have hnp : isPre [' '] (a :: s) ≠ true := by
    intro hc
    have hsp : ' ' = a := by simpa [isPre] using hc
    exact h hsp.symm
  simp only [splitOnce, if_neg hnp]

theorem splitOnce_space_cons_eq (s : Str) :
    splitOnce [' '] (' ' :: s) = some ([], s) := by
  simp [splitOnce, isPre]

theorem splitOnce_space_word (w R : Str) (hw : ∀ c ∈ w, ¬ c = ' ') :
    splitOnce [' '] (w ++ ' ' :: R) = some (w, R) := by
  induction w with
  | nil => simpa using splitOnce_space_cons_eq R
  | cons a w ih =>
    have ha : ¬ a = ' ' := hw a (List.mem_cons_self a w)
    have hw' : ∀ c ∈ w, ¬ c = ' ' := fun c hc =>
      hw c (List.mem_cons_of_mem a hc)
    rw [List.cons_append, splitOnce_space_cons_ne a _ ha, ih hw']

theorem splitFirstSpace_word (w R : Str) (hw : ∀ c ∈ w, ¬ c = ' ') :
    splitFirstSpace (w ++ ' ' :: R) = (w, some R) := by
  unfold splitFirstSpace
  rw [splitOnce_space_word w R hw]

theorem splitFirstSpace_fst (s : Str) :
    (splitFirstSpace s).1 = s.takeWhile (fun c => !(c == ' ')) := by
  induction s with
  | nil => rfl
  | cons a s ih =>
    by_cases ha : a = ' '
    · subst ha
      simp [splitFirstSpace, splitOnce_space_cons_eq, List.takeWhile_cons]
    · rw [List.takeWhile_cons]
      have hpred : (!(a == ' ')) = true := by simp [ha]
      rw [hpred, if_pos rfl]
      unfold splitFirstSpace at ih ⊢
      rw [splitOnce_space_cons_ne a s ha]
      rcases hsp : splitOnce [' '] s with _ | ⟨p, q⟩
      · rw [hsp] at ih
        simpa using ih
      · rw [hsp] at ih
        simpa using ih

/-- Lemma: `strip` distributes to a left strip of the first block and a right
strip of the second when both blocks survive trimming. -/
theorem strip_append_both (x y : Str) (hx : stripL x ≠ [])
    (hy : stripR y ≠ []) :
    strip (x ++ y) = stripL x ++ stripR y := by
  unfold strip
  rw [stripL_append _ _ hx, stripR_append _ _ hy]

/-- Evaluation of `parse_command` on a `create` command with a
non-blank remainder: the remainder is stripped and fed to the
`" in "` sub-grammar. -/
theorem parse_create (R : Str) (hR : stripR R ≠ []) :
    parse_command ((("create ").toList) ++ R)
      = ((("create").toList),
         match splitOnce sepIn (strip R) with
         | some (t, l) =>
           { card_title := some (strip t), list_name := some (strip l) }
         | none =>
           { card_title := some (strip R),
             list_name := some (("To Do").toList) }) := by
  have hCne : stripL (("create ").toList) ≠ [] := by decide
  have hCL : stripL (("create ").toList) = ("create ").toList := by decide
  have hstrip : strip ((("create ").toList) ++ R)
      = ("create ").toList ++ stripR R := by
    rw [strip_append_both _ _ hCne hR, hCL]
  have hsplit : splitFirstSpace (("create ").toList ++ stripR R)
      = ((("create").toList), some (stripR R)) := by
    have heq : ("create ").toList ++ stripR R
        = ("create").toList ++ ' ' :: stripR R := rfl
    rw [heq]
    exact splitFirstSpace_word _ _ (by decide)
  have hlow : lowerStr (("create").toList) = ("create").toList := by decide
  unfold parse_command
  rw [hstrip, hsplit]
  simp only [hlow, strip_stripR, if_pos]
  rcases splitOnce sepIn (strip R) with _ | ⟨t, l⟩ <;> rfl

/-- C1 (amended): for command strings `"create <X> in <Y>"` in which
`X` and `Y` are non-blank and no earlier `" in "` occurrence precedes
the separator (no `" in "` inside `X`'s left-stripped text followed by
`" in"`), parsing yields `card_title = X.strip()` and
`list_name = Y.strip()`; and for `"create <Z>"` with `Z` non-blank and
no `" in "` in the stripped remainder, `card_title` is the whole
stripped remainder and `list_name` defaults to `"To Do"`. -/
theorem C1_create_grammar :
    (∀ X Y : Str, strip X ≠ [] → strip Y ≠ [] →
      (¬ sepIn <:+: (stripL X ++ sepIn.dropLast)) →
      parse_command ((("create ").toList) ++ (X ++ (sepIn ++ Y)))
        = ((("create").toList),
           { card_title := some (strip X), list_name := some (strip Y) }))
  ∧ (∀ Z : Str, strip Z ≠ [] → (¬ sepIn <:+: strip Z) →
      parse_command ((("create ").toList) ++ Z)
        = ((("create").toList),
           { card_title := some (strip Z),
             list_name := some (("To Do").toList) })) := by
  constructor
  · intro X Y hX hY hsep
    have hYr : stripR Y ≠ [] := stripR_ne_nil Y hY
    have hXl : stripL X ≠ [] := stripL_ne_nil X hX
    have h1 : stripR (sepIn ++ Y) = sepIn ++ stripR Y :=
      stripR_append _ _ hYr
    have hne1 : stripR (sepIn ++ Y) ≠ [] := by
      rw [h1]
      simp [sepIn]
    have hRne : stripR (X ++ (sepIn ++ Y)) ≠ [] := by
      rw [stripR_append _ _ hne1, h1]
      simp [sepIn]
    rw [parse_create _ hRne]
    rw [strip_append_both _ _ hXl hne1, h1, ← List.append_assoc]
    rw [splitOnce_at_junction sepIn (stripL X) (stripR Y) (by decide) hsep]
    simp only [strip_stripL, strip_stripR]
  · intro Z hZ hno
    have hZr : stripR Z ≠ [] := stripR_ne_nil Z hZ
    rw [parse_create _ hZr]
    rw [(splitOnce_none_iff sepIn (by decide) (strip Z)).2 hno]

/-- C1 counterexample: the command string `"create a in b in c"` is of
the form `"create <X> in <Y>"` with `X = "a in b"`, `Y = "c"`, but the
code splits at the FIRST `" in "` and returns `card_title = "a"`,
not `X.strip() = "a in b"`. -/
theorem C1_cex :
    (parse_command (("create a in b in c").toList)).2.card_title
        = some (("a").toList)
  ∧ ¬ (parse_command (("create a in b in c").toList)).2.card_title
        = some (strip (("a in b").toList)) := by
  constructor
  · decide
  · decide

/-- C1 witness: end-to-end scenario 1 of the spec,
`"create Fix login bug in Bugs"`. -/
theorem C1_wit :
    parse_command ((("create ").toList) ++
        ((("Fix login bug").toList) ++ (sepIn ++ (("Bugs").toList))))
      = ((("create").toList),
         { card_title := some (strip (("Fix login bug").toList)),
           list_name := some (strip (("Bugs").toList)) }) :=
  C1_create_grammar.1 (("Fix login bug").toList) (("Bugs").toList)
    (by decide) (by decide) (by decide)

/-- Evaluation of `parse_command` on a `move` command with a
non-blank remainder: the remainder is stripped and fed to the
`" to "` sub-grammar. -/
theorem parse_move (R : Str) (hR : stripR R ≠ []) :
    parse_command ((("move ").toList) ++ R)
      = ((("move").toList),
         match splitOnce sepTo (strip R) with
         | some (cid, l) =>
           { card_id := some (strip cid), list_name := some (strip l) }
         | none => {}) := by
  have hCne : stripL (("move ").toList) ≠ [] := by decide
  have hCL : stripL (("move ").toList) = ("move ").toList := by decide
  have hstrip : strip ((("move ").toList) ++ R)
      = ("move ").toList ++ stripR R := by
    rw [strip_append_both _ _ hCne hR, hCL]
  have hsplit : splitFirstSpace (("move ").toList ++ stripR R)
      = ((("move").toList), some (stripR R)) := by
    have heq : ("move ").toList ++ stripR R
        = ("move").toList ++ ' ' :: stripR R := rfl
    rw [heq]
    exact splitFirstSpace_word _ _ (by decide)
  have hlow : lowerStr (("move").toList) = ("move").toList := by decide
  unfold parse_command
  rw [hstrip, hsplit]
  simp only [hlow, strip_stripR]
  rw [if_neg (by decide : ¬ ("move").toList = ("create").toList),
    if_neg (by decide : ¬ ("move").toList = ("lists").toList),
    if_neg (by decide : ¬ ("move").toList = ("comment").toList)]
  simp only [if_true]
  rcases splitOnce sepTo (strip R) with _ | ⟨cid, l⟩ <;> rfl

/-- C6 (amended): for command strings `"move <id> to <name>"` in which
`id` and `name` are non-blank and no earlier `" to "` occurrence
precedes the separator, parsing yields `card_id = id.strip()` and
`list_name = name.strip()`; for a `move` command whose stripped
remainder contains no `" to "`, neither key is set. -/
theorem C6_move_grammar :
    (∀ X Y : Str, strip X ≠ [] → strip Y ≠ [] →
      (¬ sepTo <:+: (stripL X ++ sepTo.dropLast)) →
      parse_command ((("move ").toList) ++ (X ++ (sepTo ++ Y)))
        = ((("move").toList),
           { card_id := some (strip X), list_name := some (strip Y) }))
  ∧ (∀ Z : Str, strip Z ≠ [] → (¬ sepTo <:+: strip Z) →
      parse_command ((("move ").toList) ++ Z)
        = ((("move").toList), {})) := by
  constructor
  · intro X Y hX hY hsep
    have hYr : stripR Y ≠ [] := stripR_ne_nil Y hY
    have hXl : stripL X ≠ [] := stripL_ne_nil X hX
    have h1 : stripR (sepTo ++ Y) = sepTo ++ stripR Y :=
      stripR_append _ _ hYr
    have hne1 : stripR (sepTo ++ Y) ≠ [] := by
      rw [h1]
      simp [sepTo]
    have hRne : stripR (X ++ (sepTo ++ Y)) ≠ [] := by
      rw [stripR_append _ _ hne1, h1]
      simp [sepTo]
    rw [parse_move _ hRne]
    rw [strip_append_both _ _ hXl hne1, h1, ← List.append_assoc]
    rw [splitOnce_at_junction sepTo (stripL X) (stripR Y) (by decide) hsep]
    simp only [strip_stripL, strip_stripR]
  · intro Z hZ hno
    have hZr : stripR Z ≠ [] := stripR_ne_nil Z hZ
    rw [parse_move _ hZr]
    rw [(splitOnce_none_iff sepTo (by decide) (strip Z)).2 hno]

/-- C6 counterexample: `"move a to b to c"` is of the form
`"move <id> to <name>"` with `id = "a to b"`, `name = "c"`, but the
code splits at the FIRST `" to "` and returns `card_id = "a"`, not
`id.strip() = "a to b"`. -/
theorem C6_cex :
    (parse_command (("move a to b to c").toList)).2.card_id
        = some (("a").toList)
  ∧ ¬ (parse_command (("move a to b to c").toList)).2.card_id
        = some (strip (("a to b").toList)) := by
  constructor
  · decide
  · decide

/-- C6 witness: `"move abc123 to Done"` parses to the stripped id and
list name, and a `move` remainder without `" to "` sets neither key. -/
theorem C6_wit :
    parse_command ((("move ").toList) ++
        ((("abc123").toList) ++ (sepTo ++ (("Done").toList))))
      = ((("move").toList),
         { card_id := some (strip (("abc123").toList)),
           list_name := some (strip (("Done").toList)) })
  ∧ parse_command ((("move ").toList) ++ (("somewhere").toList))
      = ((("move").toList), {}) :=
  ⟨C6_move_grammar.1 (("abc123").toList) (("Done").toList)
      (by decide) (by decide) (by decide),
   C6_move_grammar.2 (("somewhere").toList) (by decide) (by decide)⟩

/-- The command word returned by `parse_command` is always the
lower-cased first component of the space split of the stripped
input. -/
theorem parse_command_fst (s : Str) :
    (parse_command s).1 = lowerStr (splitFirstSpace (strip s)).1 := by
  simp only [parse_command]
  repeat' split
  all_goals rfl

/-- C5 (amended): `parse_command` splits the trimmed input at the
first space character (not at an arbitrary whitespace run) into a
lower-cased command name and a remainder, and any command name outside
`{create, lists, comment, move, boards}` yields an empty argument
map. -/
theorem C5_first_token :
    (∀ s : Str, (parse_command s).1
        = lowerStr ((strip s).takeWhile (fun c => !(c == ' '))))
  ∧ (∀ s : Str,
      (parse_command s).1 ≠ ("create").toList →
      (parse_command s).1 ≠ ("lists").toList →
      (parse_command s).1 ≠ ("comment").toList →
      (parse_command s).1 ≠ ("move").toList →
      (parse_command s).1 ≠ ("boards").toList →
      (parse_command s).2 = {}) := by
  constructor
  · intro s
    rw [parse_command_fst, splitFirstSpace_fst]
  · intro s h1 h2 h3 h4 _
    have hfst := parse_command_fst s
    rcases hp : splitFirstSpace (strip s) with ⟨c0, rest?⟩
    rw [hp] at hfst
    rw [hfst] at h1 h2 h3 h4
    unfold parse_command
    rw [hp]
    rcases rest? with _ | rest
    · rfl
    · simp only [] at h1 h2 h3 h4 ⊢
      rw [if_neg h1, if_neg h2, if_neg h3, if_neg h4]

/-- C5 counterexample: on `"create\tfoo"` (tab separator) the code
does NOT split at the whitespace run: the whole text becomes the
command name, refuting "splits on the first whitespace run". -/
theorem C5_cex :
    (strip (("create\tfoo").toList)).takeWhile
        (fun c => !c.isWhitespace) = ("create").toList
  ∧ ¬ (parse_command (("create\tfoo").toList)).1
        = lowerStr (("create").toList) := by
  constructor
  · decide
  · decide

/-- C5 witness: an unknown command word gives the lower-cased first
token and an empty argument map. -/
theorem C5_wit :
    (parse_command (("HELP me please").toList)).1
        = lowerStr (((strip (("HELP me please").toList))).takeWhile
            (fun c => !(c == ' ')))
  ∧ (parse_command (("HELP me please").toList)).2 = {} :=
  ⟨C5_first_token.1 _,
   C5_first_token.2 _ (by decide) (by decide) (by decide) (by decide)
     (by decide)⟩

/-- C2: starting from a state in which `board_name` is not yet cached,
a successful `get_board` issues exactly one backend `list_boards` call
(the `1` in its hypothesis), and the second call with the identical
name is served from the cache: same `Board` entity, same state, zero
backend calls. -/
theorem C2_cache_idempotent (env : Env) (st : St) (n : Str) (b : Board)
    (st1 : St) (h0 : st.boards.lookup n = none)
    (h1 : get_board env n st = (.ok (some b) st1, 1)) :
    get_board env n st1 = (.ok (some b) st1, 0) := by
  unfold get_board at h1 ⊢
  rcases hb : env.list_boards with e | bs
  · simp only [h0, hb] at h1
    exact absurd h1 (by simp)
  · simp only [h0, hb] at h1
    rcases hf : bs.find? (fun b' => lowerStr b'.name == lowerStr n)
        with _ | b'
    · simp only [hf] at h1
      exact absurd h1 (by simp)
    · simp only [hf] at h1
      have hb2 : b' = b ∧
          ({ st with boards := (n, b') :: st.boards } : St) = st1 := by
        have := h1
        simp only [Prod.mk.injEq, Res.ok.injEq, Option.some.injEq] at this
        exact ⟨this.1.1, this.1.2⟩
      obtain ⟨rfl, hst⟩ := hb2
      rw [← hst]
      simp [List.lookup]

/-- The one concrete board used by the cache witnesses. -/
def bMain : Board := { id := ("b1").toList, name := ("Main Board").toList }

/-- A backend with a single board `"Main Board"`, whose `get_card`
reports every card id as missing and whose mutating calls fail. -/
def envMain : Env :=
  { list_boards := .ok [bMain],
    get_card := fun _ => .ok none,
    get_board_by_id := fun _ => .error (("no such board").toList),
    add_card := fun _ _ _ => .error (("backend down").toList),
    add_board := fun _ _ => .error (("backend down").toList),
    add_list := fun _ _ => .error (("backend down").toList),
    set_due := fun _ _ => .error (("backend down").toList),
    add_label := fun _ _ => .error (("backend down").toList),
    change_list := fun _ _ => .error (("backend down").toList),
    add_comment := fun _ _ => .error (("backend down").toList) }

/-- State after `envMain` resolves `"Main Board"` once. -/
def stMain1 : St := { boards := [((("Main Board").toList), bMain)] }

/-- C2 witness: resolving `"Main Board"` against `envMain` from an
empty cache issues one backend call; the repeat call is served from
the cache with zero backend calls and the same board. -/
theorem C2_wit :
    get_board envMain (("Main Board").toList) stMain1
      = (.ok (some bMain) stMain1, 0) :=
  C2_cache_idempotent envMain {} (("Main Board").toList) bMain stMain1
    rfl (by decide)

/-- C4 counterexample: with `"Main Board"` already cached, resolving
`"MAIN BOARD"` is NOT served from the cache — the cache key lookup is
case-sensitive, so a fresh backend `list_boards` call (count `1`, not
`0`) is issued before the same board is found again. -/
theorem C4_cex :
    get_board envMain (("MAIN BOARD").toList) stMain1
      = (.ok (some bMain)
          { boards := [((("MAIN BOARD").toList), bMain),
                       ((("Main Board").toList), bMain)] }, 1) := by
  decide

/-- C4 (amended): two board names equal up to case are NOT unified by
the cache: after the first resolves (one backend call), resolving the
second issues a second backend `list_boards` call, but the
case-insensitive backend match returns the same `Board` entity, which
is then cached under the second spelling as well. -/
theorem C4_case_sensitive_cache (env : Env) (st : St) (n1 n2 : Str)
    (b : Board) (st1 : St)
    (hlow : lowerStr n1 = lowerStr n2)
    (h02 : st.boards.lookup n2 = none)
    (hne : (n2 == n1) = false)
    (h01 : st.boards.lookup n1 = none)
    (h1 : get_board env n1 st = (.ok (some b) st1, 1)) :
    get_board env n2 st1
      = (.ok (some b) { st1 with boards := (n2, b) :: st1.boards }, 1) := by
  unfold get_board at h1 ⊢
  rcases hb : env.list_boards with e | bs
  · simp only [h01, hb] at h1
    exact absurd h1 (by simp)
  · simp only [h01, hb] at h1
    rcases hf : bs.find? (fun b' => lowerStr b'.name == lowerStr n1)
        with _ | b'
    · simp only [hf] at h1
      exact absurd h1 (by simp)
    · simp only [hf] at h1
      have hb2 : b' = b ∧
          ({ st with boards := (n1, b') :: st.boards } : St) = st1 := by
        have hx := h1
        simp only [Prod.mk.injEq, Res.ok.injEq, Option.some.injEq] at hx
        exact ⟨hx.1.1, hx.1.2⟩
      obtain ⟨rfl, hst⟩ := hb2
      rw [← hst]
      have hpred : (fun c : Board => lowerStr c.name == lowerStr n2)
          = (fun c : Board => lowerStr c.name == lowerStr n1) := by
        funext c
        rw [hlow]
      simp only [List.lookup, hne, h02, hpred, hf]

/-- C4 witness: `envMain` with `"Main Board"` cached resolves
`"MAIN BOARD"` to the same entity via one more backend call, caching
it under the second spelling. -/
theorem C4_wit :
    get_board envMain (("MAIN BOARD").toList) stMain1
      = (.ok (some bMain)
          { stMain1 with
            boards := ((("MAIN BOARD").toList), bMain) :: stMain1.boards },
         1) :=
  C4_case_sensitive_cache envMain {} (("Main Board").toList)
    (("MAIN BOARD").toList) bMain stMain1 (by decide) rfl (by decide) rfl
    (by decide)

/-- C7: when the backend has no card with the given id (`get_card`
returns nothing), `move_card` returns `success = false` with an error
message that contains `"not found"`, and the exception boundary is
never involved — no fault reaches the caller. -/
theorem C7_move_card_not_found (env : Env) (cid tgt : Str) (st : St)
    (h : env.get_card cid = .ok none) :
    move_card env cid tgt st
      = ({ success := false,
           error := some ((("Card with ID '").toList ++ cid ++
             ("' not found").toList)) }, st)
  ∧ (("not found").toList) <:+:
      ((("Card with ID '").toList ++ cid ++ ("' not found").toList)) := by
  constructor
  · unfold move_card move_cardB
    rw [h]
    rfl
  · have hlit : (("' not found").toList : Str)
        = ("' ").toList ++ ("not found").toList := rfl
    rw [hlit, ← List.append_assoc]
    exact (List.suffix_append _ _).isInfix

/-- C7 witness: end-to-end scenario 3, `move_card("abc123", "Done")`
with no such card. -/
theorem C7_wit :
    move_card envMain (("abc123").toList) (("Done").toList) {}
      = ({ success := false,
           error := some ((("Card with ID '").toList ++
             (("abc123").toList) ++ ("' not found").toList)) }, {})
  ∧ (("not found").toList) <:+:
      ((("Card with ID '").toList ++ (("abc123").toList) ++
        ("' not found").toList)) :=
  C7_move_card_not_found envMain (("abc123").toList) (("Done").toList)
    {} rfl

/-- C3 (amended): every workflow operation catches backend exceptions
at its boundary.  The seven record-returning operations
(`create_card`, `move_card`, `add_comment`, `create_board`,
`create_list`, `get_boards`, `get_lists`) convert a raised exception
`e` into `{success: false, error: e}` (keeping the state reached);
`get_upcoming_due_cards` also catches, but returns the empty list
rather than an error record. -/
theorem C3_error_boundary :
    (∀ env b l t d lb dd st e st',
      create_cardB env b l t d lb dd st = .err e st' →
      create_card env b l t d lb dd st
        = ({ success := false, error := some e }, st'))
  ∧ (∀ env cid tgt st e st',
      move_cardB env cid tgt st = .err e st' →
      move_card env cid tgt st
        = ({ success := false, error := some e }, st'))
  ∧ (∀ env cid txt st e st',
      add_commentB env cid txt st = .err e st' →
      add_comment env cid txt st
        = ({ success := false, error := some e }, st'))
  ∧ (∀ env n d st e st',
      create_boardB env n d st = .err e st' →
      create_board env n d st
        = ({ success := false, error := some e }, st'))
  ∧ (∀ env bn ln st e st',
      create_listB env bn ln st = .err e st' →
      create_list env bn ln st
        = ({ success := false, error := some e }, st'))
  ∧ (∀ env st e st',
      get_boardsB env st = .err e st' →
      get_boards env st = ({ success := false, error := some e }, st'))
  ∧ (∀ env bn st e st',
      get_listsB env bn st = .err e st' →
      get_lists env bn st = ({ success := false, error := some e }, st'))
  ∧ (∀ env st today k e,
      get_upcoming_due_cardsB env st today k = .error e →
      get_upcoming_due_cards env st today k = []) := by
  refine ⟨?_, ?_, ?_, ?_, ?_, ?_, ?_, ?_⟩
  · intro env b l t d lb dd st e st' h
    unfold create_card
    rw [h]
    rfl
  · intro env cid tgt st e st' h
    unfold move_card
    rw [h]
    rfl
  · intro env cid txt st e st' h
    unfold add_comment
    rw [h]
    rfl
  · intro env n d st e st' h
    unfold create_board
    rw [h]
    rfl
  · intro env bn ln st e st' h
    unfold create_list
    rw [h]
    rfl
  · intro env st e st' h
    unfold get_boards
    rw [h]
    rfl
  · intro env bn st e st' h
    unfold get_lists
    rw [h]
    rfl
  · intro env st today k e h
    unfold get_upcoming_due_cards
    rw [h]

/-- A backend whose every call raises. -/
def envDown : Env :=
  { list_boards := .error (("trello unavailable").toList),
    get_card := fun _ => .error (("trello unavailable").toList),
    get_board_by_id := fun _ => .error (("trello unavailable").toList),
    add_card := fun _ _ _ => .error (("trello unavailable").toList),
    add_board := fun _ _ => .error (("trello unavailable").toList),
    add_list := fun _ _ => .error (("trello unavailable").toList),
    set_due := fun _ _ => .error (("trello unavailable").toList),
    add_label := fun _ _ => .error (("trello unavailable").toList),
    change_list := fun _ _ => .error (("trello unavailable").toList),
    add_comment := fun _ _ => .error (("trello unavailable").toList) }

/-- A fixed "now" used by the concrete scan runs. -/
def dtNow : DateTime := { year := 2026, month := 10, day := 12, hour := 9 }

/-- C3 counterexample: with the backend raising, the claim predicts
every operation — `get_upcoming_due_cards` included — returns a
`{success: false, error: ...}` record; but `get_upcoming_due_cards`
returns the bare empty list, the very value a successful scan with no
upcoming cards returns (here compared against healthy `envMain`). -/
theorem C3_cex :
    get_upcoming_due_cards envDown {} dtNow 2 = []
  ∧ get_upcoming_due_cards envDown {} dtNow 2
      = get_upcoming_due_cards envMain {} dtNow 2 := by
  constructor
  · decide
  · decide

/-- C3 witness: a raising backend makes `get_boards` return the
uniform error record with the exception text. -/
theorem C3_wit :
    get_boards envDown {}
      = ({ success := false,
           error := some (("trello unavailable").toList) }, {}) :=
  C3_error_boundary.2.2.2.2.2.1 envDown {}
    (("trello unavailable").toList) {} rfl

/-- C10: if any backend call raises at any point during the scan,
`get_upcoming_due_cards` returns `[]` (and raises nothing); a
successful scan that finds no upcoming cards returns `[]` as well, so
the two outcomes are indistinguishable to the caller — the result
carries no success/error field. -/
theorem C10_scan_failure_empty :
    (∀ env st today k e,
      get_upcoming_due_cardsB env st today k = .error e →
      get_upcoming_due_cards env st today k = [])
  ∧ (∀ env st today k,
      get_upcoming_due_cardsB env st today k = .ok [] →
      get_upcoming_due_cards env st today k = []) := by
  constructor
  · intro env st today k e h
    unfold get_upcoming_due_cards
    rw [h]
  · intro env st today k h
    unfold get_upcoming_due_cards
    rw [h]

/-- C10 witness: the failing scan on `envDown` and the successful
empty scan on `envMain` both return `[]`. -/
theorem C10_wit :
    get_upcoming_due_cards envDown {} dtNow 2 = []
  ∧ get_upcoming_due_cards envMain {} dtNow 2 = [] :=
  ⟨C10_scan_failure_empty.1 envDown {} dtNow 2
      (("trello unavailable").toList) rfl,
   C10_scan_failure_empty.2 envMain {} dtNow 2 (by decide)⟩

/-- The state reached by a method body, whether it returned or
raised. -/
def Res.state {α : Type} : Res α → St
  | .ok _ st => st
  | .err _ st => st

/-- A board entity that the backend actually reported: it appears in a
successful `list_boards` answer, or it is the value returned by a
successful `add_board` creation. -/
def boardFromBackend (env : Env) (b : Board) : Prop :=
  (∃ bs, env.list_boards = .ok bs ∧ b ∈ bs)
  ∨ (∃ n d, env.add_board n d = .ok b)

/-- A list entity the backend actually reported: it appears among the
lists of a backend-confirmed board, or it is the value returned by a
successful `add_list` creation. -/
def listFromBackend (env : Env) (l : TList) : Prop :=
  (∃ b, boardFromBackend env b ∧ ∃ ls, b.lists = .ok ls ∧ l ∈ ls)
  ∨ (∃ bid n, env.add_list bid n = .ok l)

/-- The C9 invariant: every cached board/list entry was confirmed
present in the backend when it was inserted. -/
def StJustified (env : Env) (st : St) : Prop :=
  (∀ p ∈ st.boards, boardFromBackend env p.2)
  ∧ (∀ q ∈ st.lists, listFromBackend env q.2)

theorem lookup_mem {α β : Type} [BEq α] (l : List (α × β)) (k : α)
    (v : β) (h : l.lookup k = some v) : ∃ k', (k', v) ∈ l := by
  induction l with
  | nil => simp [List.lookup] at h
  | cons p t ih =>
    rcases p with ⟨a, b⟩
    by_cases hk : (k == a) = true
    · simp only [List.lookup, hk] at h
      cases h
      exact ⟨a, List.mem_cons_self _ _⟩
    · simp only [List.lookup, Bool.of_not_eq_true hk] at h
      obtain ⟨k', hm⟩ := ih h
      exact ⟨k', List.mem_cons_of_mem _ hm⟩

/-- Lemma: `get_board` preserves the invariant, and any board it returns is
backend-confirmed. -/
theorem get_board_spec (env : Env) (n : Str) (st : St)
    (hst : StJustified env st) :
    StJustified env ((get_board env n st).1).state
  ∧ (∀ b st', (get_board env n st).1 = .ok (some b) st' →
      boardFromBackend env b) := by
  unfold get_board
  rcases hl : st.boards.lookup n with _ | b0
  · rcases hb : env.list_boards with e | bs
    · simp only [hl, hb, Res.state]
      exact ⟨hst, fun b st' hres => by simp at hres⟩
    · rcases hf : bs.find? (fun b' => lowerStr b'.name == lowerStr n)
          with _ | b1
      · simp only [hl, hb, hf, Res.state]
        exact ⟨hst, fun b st' hres => by simp at hres⟩
      · have hb1 : boardFromBackend env b1 :=
          Or.inl ⟨bs, hb, List.mem_of_find?_eq_some hf⟩
        simp only [hl, hb, hf, Res.state]
        refine ⟨⟨?_, ?_⟩, ?_⟩
        · intro p hp
          rcases List.mem_cons.1 hp with hp0 | hp1
          · rw [hp0]
            exact hb1
          · exact hst.1 p hp1
        · intro q hq
          exact hst.2 q hq
        · intro b st' hres
          have hbb : b1 = b := by
            simp only [Res.ok.injEq, Option.some.injEq] at hres
            exact hres.1
          rw [← hbb]
          exact hb1
  · have hb0 : boardFromBackend env b0 := by
      obtain ⟨k', hm⟩ := lookup_mem _ _ _ hl
      exact hst.1 (k', b0) hm
    simp only [hl, Res.state]
    refine ⟨hst, ?_⟩
    intro b st' hres
    have hbb : b0 = b := by
      simp only [Res.ok.injEq, Option.some.injEq] at hres
      exact hres.1
    rw [← hbb]
    exact hb0

/-- Lemma: `get_list` preserves the invariant: it caches only lists found
among a backend-confirmed board's backend-reported lists. -/
theorem get_list_spec (env : Env) (bn ln : Str) (st : St)
    (hst : StJustified env st) :
    StJustified env (get_list env bn ln st).state := by
  unfold get_list
  rcases hl : st.lists.lookup (bn ++ (":").toList ++ ln) with _ | l0
  · rcases hgb : (get_board env bn st).1 with ⟨ob, st'⟩ | ⟨e, st'⟩
    · have hstate := (get_board_spec env bn st hst).1
      rw [hgb] at hstate
      have hst' : StJustified env st' := by simpa [Res.state] using hstate
      rcases ob with _ | b
      · simp only [hl, hgb, Res.state]
        exact hst'
      · have hbJ : boardFromBackend env b :=
          (get_board_spec env bn st hst).2 b st' hgb
        rcases hls : b.lists with e2 | ls
        · simp only [hl, hgb, hls, Res.state]
          exact hst'
        · rcases hf : ls.find? (fun l => lowerStr l.name == lowerStr ln)
              with _ | l1
          · simp only [hl, hgb, hls, hf, Res.state]
            exact hst'
          · simp only [hl, hgb, hls, hf, Res.state]
            refine ⟨?_, ?_⟩
            · intro p hp
              exact hst'.1 p hp
            · intro q hq
              rcases List.mem_cons.1 hq with hq0 | hq1
              · rw [hq0]
                exact Or.inl ⟨b, hbJ, ls, hls, List.mem_of_find?_eq_some hf⟩
              · exact hst'.2 q hq1
    · have hstate := (get_board_spec env bn st hst).1
      rw [hgb] at hstate
      simp only [hl, hgb, Res.state]
      simpa [Res.state] using hstate
  · simp only [hl, Res.state]
    exact hst

theorem addMatchingLabels_state (env : Env) (cid n : Str)
    (avail : List Label) (st : St) :
    (addMatchingLabels env cid n avail st).state = st := by
  induction avail generalizing st with
  | nil => rfl
  | cons lab rest ih =>
    unfold addMatchingLabels
    by_cases hm : (lowerStr lab.name == lowerStr n) = true
    · rw [if_pos hm]
      rcases ha : env.add_label cid lab.id with e | u
      · simp only [Res.state]
      · exact ih st
    · rw [if_neg hm]
      exact ih st

theorem addLabels_state (env : Env) (cid : Str) (avail : List Label)
    (ns : List Str) (st : St) :
    (addLabels env cid avail ns st).state = st := by
  induction ns generalizing st with
  | nil => rfl
  | cons n ns ih =>
    unfold addLabels
    rcases ham : addMatchingLabels env cid n avail st
        with ⟨u, st'⟩ | ⟨e, st'⟩
    · have h1 : st' = st := by
        have hh := addMatchingLabels_state env cid n avail st
        rw [ham] at hh
        simpa [Res.state] using hh
      simp only [ham]
      rw [h1]
      exact ih st
    · have h1 : st' = st := by
        have hh := addMatchingLabels_state env cid n avail st
        rw [ham] at hh
        simpa [Res.state] using hh
      simp only [ham, Res.state]
      exact h1

/-- The labels step touches the cache only through `get_board`. -/
theorem labelsStep_spec (env : Env) (bn : Str) (lb : Option (List Str))
    (cid : Str) (st : St) (hst : StJustified env st) :
    StJustified env (labelsStep env bn lb cid st).state := by
  unfold labelsStep
  by_cases he : (lb.getD []).isEmpty = true
  · rw [if_pos he]
    exact hst
  · rw [if_neg he]
    rcases hgb : (get_board env bn st).1 with ⟨ob, st'⟩ | ⟨e, st'⟩
    · have hstate := (get_board_spec env bn st hst).1
      rw [hgb] at hstate
      have hst' : StJustified env st' := by simpa [Res.state] using hstate
      rcases ob with _ | b
      · simp only [hgb, Res.state]
        exact hst'
      · rcases hlab : b.labels with e2 | avail
        · simp only [hgb, hlab, Res.state]
          exact hst'
        · simp only [hgb, hlab]
          have hsame := addLabels_state env cid avail (lb.getD []) st'
          rcases hres : addLabels env cid avail (lb.getD []) st'
              with ⟨u, st2⟩ | ⟨e3, st2⟩
          · rw [hres] at hsame
            simp only [Res.state] at hsame ⊢
            rw [hsame]
            exact hst'
          · rw [hres] at hsame
            simp only [Res.state] at hsame ⊢
            rw [hsame]
            exact hst'
    · have hstate := (get_board_spec env bn st hst).1
      rw [hgb] at hstate
      simp only [hgb, Res.state]
      simpa [Res.state] using hstate

theorem dueStep_state (env : Env) (dd : Option Str) (cid : Str)
    (st : St) : (dueStep env dd cid st).state = st := by
  unfold dueStep
  repeat' split
  all_goals rfl

theorem create_cardB_spec (env : Env) (b l t : Str) (d : Option Str)
    (lb : Option (List Str)) (dd : Option Str) (st : St)
    (hst : StJustified env st) :
    StJustified env (create_cardB env b l t d lb dd st).state := by
  unfold create_cardB
  rcases hgl : get_list env b l st with ⟨ol, st'⟩ | ⟨e, st'⟩
  · have hstl := get_list_spec env b l st hst
    rw [hgl] at hstl
    have hst' : StJustified env st' := by simpa [Res.state] using hstl
    rcases ol with _ | lobj
    · simp only [hgl, Res.state]
      exact hst'
    · rcases hac : env.add_card lobj.id t (d.getD []) with e2 | card
      · simp only [hgl, hac, Res.state]
        exact hst'
      · simp only [hgl, hac]
        have hlb := labelsStep_spec env b lb card.id st' hst'
        rcases hls : labelsStep env b lb card.id st' with ⟨u, st2⟩ | ⟨e3, st2⟩
        · rw [hls] at hlb
          have hst2 : StJustified env st2 := by simpa [Res.state] using hlb
          have hds := dueStep_state env dd card.id st2
          rcases hdu : dueStep env dd card.id st2 with ⟨u2, st3⟩ | ⟨e4, st3⟩
          · rw [hdu] at hds
            simp only [Res.state] at hds
            simp only [hdu, Res.state]
            rw [hds]
            exact hst2
          · rw [hdu] at hds
            simp only [Res.state] at hds
            simp only [hdu, Res.state]
            rw [hds]
            exact hst2
        · rw [hls] at hlb
          simp only [Res.state] at hlb
          simp only [hls, Res.state]
          exact hlb
  · have hstl := get_list_spec env b l st hst
    rw [hgl] at hstl
    simp only [hgl, Res.state]
    simpa [Res.state] using hstl

theorem move_cardB_state (env : Env) (cid tgt : Str) (st : St) :
    (move_cardB env cid tgt st).state = st := by
  unfold move_cardB
  repeat' split
  all_goals rfl

theorem add_commentB_state (env : Env) (cid txt : Str) (st : St) :
    (add_commentB env cid txt st).state = st := by
  unfold add_commentB
  repeat' split
  all_goals rfl

theorem get_boardsB_state (env : Env) (st : St) :
    (get_boardsB env st).state = st := by
  unfold get_boardsB
  repeat' split
  all_goals rfl

theorem create_boardB_spec (env : Env) (bn : Str) (d : Option Str)
    (st : St) (hst : StJustified env st) :
    StJustified env (create_boardB env bn d st).state := by
  unfold create_boardB
  rcases hab : env.add_board bn (d.getD []) with e | b
  · simp only [hab, Res.state]
    exact hst
  · simp only [hab, Res.state]
    refine ⟨?_, ?_⟩
    · intro p hp
      rcases List.mem_cons.1 hp with hp0 | hp1
      · rw [hp0]
        exact Or.inr ⟨bn, d.getD [], hab⟩
      · exact hst.1 p hp1
    · intro q hq
      exact hst.2 q hq

theorem create_listB_spec (env : Env) (bn ln : Str) (st : St)
    (hst : StJustified env st) :
    StJustified env (create_listB env bn ln st).state := by
  unfold create_listB
  rcases hgb : (get_board env bn st).1 with ⟨ob, st'⟩ | ⟨e, st'⟩
  · have hstate := (get_board_spec env bn st hst).1
    rw [hgb] at hstate
    have hst' : StJustified env st' := by simpa [Res.state] using hstate
    rcases ob with _ | b
    · simp only [hgb, Res.state]
      exact hst'
    · rcases hal : env.add_list b.id ln with e2 | lst
      · simp only [hgb, hal, Res.state]
        exact hst'
      · simp only [hgb, hal, Res.state]
        refine ⟨?_, ?_⟩
        · intro p hp
          exact hst'.1 p hp
        · intro q hq
          rcases List.mem_cons.1 hq with hq0 | hq1
          · rw [hq0]
            exact Or.inr ⟨b.id, ln, hal⟩
          · exact hst'.2 q hq1
  · have hstate := (get_board_spec env bn st hst).1
    rw [hgb] at hstate
    simp only [hgb, Res.state]
    simpa [Res.state] using hstate

theorem get_listsB_spec (env : Env) (bn : Str) (st : St)
    (hst : StJustified env st) :
    StJustified env (get_listsB env bn st).state := by
  unfold get_listsB
  rcases hgb : (get_board env bn st).1 with ⟨ob, st'⟩ | ⟨e, st'⟩
  · have hstate := (get_board_spec env bn st hst).1
    rw [hgb] at hstate
    have hst' : StJustified env st' := by simpa [Res.state] using hstate
    rcases ob with _ | b
    · simp only [hgb, Res.state]
      exact hst'
    · rcases hls : b.lists with e2 | ls
      · simp only [hgb, hls, Res.state]
        exact hst'
      · simp only [hgb, hls, Res.state]
        exact hst'
  · have hstate := (get_board_spec env bn st hst).1
    rw [hgb] at hstate
    simp only [hgb, Res.state]
    simpa [Res.state] using hstate

theorem catchOp_state (r : Res Result) : (catchOp r).2 = r.state := by
  cases r <;> rfl

/-- C9: the caches only ever gain entries that were confirmed by the
backend at insertion time.  Formally: the invariant `StJustified` —
every cached board appears in a successful backend listing or is the
value returned by a successful `add_board`, and every cached list
belongs to such a board's backend-reported lists or came from a
successful `add_list` — is preserved by every workflow operation
(`get_upcoming_due_cards`, `get_boards`, `move_card` and `add_comment`
do not touch the caches at all). -/
theorem C9_cache_confirmed :
    (∀ env n st, StJustified env st →
        StJustified env ((get_board env n st).1).state)
  ∧ (∀ env bn ln st, StJustified env st →
        StJustified env (get_list env bn ln st).state)
  ∧ (∀ env b l t d lb dd st, StJustified env st →
        StJustified env (create_card env b l t d lb dd st).2)
  ∧ (∀ env cid tgt st, StJustified env st →
        StJustified env (move_card env cid tgt st).2)
  ∧ (∀ env cid txt st, StJustified env st →
        StJustified env (add_comment env cid txt st).2)
  ∧ (∀ env n d st, StJustified env st →
        StJustified env (create_board env n d st).2)
  ∧ (∀ env bn ln st, StJustified env st →
        StJustified env (create_list env bn ln st).2)
  ∧ (∀ env st, StJustified env st →
        StJustified env (get_boards env st).2)
  ∧ (∀ env bn st, StJustified env st →
        StJustified env (get_lists env bn st).2) := by
  refine ⟨?_, ?_, ?_, ?_, ?_, ?_, ?_, ?_, ?_⟩
  · intro env n st hst
    exact (get_board_spec env n st hst).1
  · intro env bn ln st hst
    exact get_list_spec env bn ln st hst
  · intro env b l t d lb dd st hst
    unfold create_card
    rw [catchOp_state]
    exact create_cardB_spec env b l t d lb dd st hst
  · intro env cid tgt st hst
    unfold move_card
    rw [catchOp_state, move_cardB_state]
    exact hst
  · intro env cid txt st hst
    unfold add_comment
    rw [catchOp_state, add_commentB_state]
    exact hst
  · intro env n d st hst
    unfold create_board
    rw [catchOp_state]
    exact create_boardB_spec env n d st hst
  · intro env bn ln st hst
    unfold create_list
    rw [catchOp_state]
    exact create_listB_spec env bn ln st hst
  · intro env st hst
    unfold get_boards
    rw [catchOp_state, get_boardsB_state]
    exact hst
  · intro env bn st hst
    unfold get_lists
    rw [catchOp_state]
    exact get_listsB_spec env bn st hst

/-- C9 witness: the invariant holds of the empty cache and is carried
through a concrete successful `get_board` resolution against
`envMain`. -/
theorem C9_wit :
    StJustified envMain
      ((get_board envMain (("Main Board").toList) {}).1).state :=
  C9_cache_confirmed.1 envMain (("Main Board").toList) {}
    ⟨fun p hp => absurd hp (List.not_mem_nil p),
     fun q hq => absurd hq (List.not_mem_nil q)⟩

/-- Per-card selection predicate, written as the claim states it: a
card is returned exactly when it has a due-date string that parses and
the parsed date lies in the closed interval
`[today, today + days_ahead days]`; otherwise (no due date, empty
string, unparseable string, out of range) it is skipped. -/
def dueFilter (st : St) (today : DateTime) (days_ahead : Int)
    (bname bid lname : Str) (c : Card) : Option CardInfo :=
  match c.due_date with
  | none => none
  | some ds =>
    if ds.isEmpty then none
    else
      match parseDue ds with
      | none => none
      | some due =>
        if dtLe today due && dtLe due (addDays today days_ahead) then
          some { card_id := c.id, card_name := c.name, card_url := c.url,
                 due_date := ds, board_name := bname, list_name := lname,
                 channel_id := st.channel_mapping.lookup bid }
        else none

/-- The claim's characterisation of the scan result: every board,
every list, every card, filtered by `dueFilter`, in traversal
order. -/
def upcomingSpecCards (env : Env) (st : St) (today : DateTime)
    (days_ahead : Int) : List CardInfo :=
  match env.list_boards with
  | .error _ => []
  | .ok bs =>
    bs.flatMap fun b =>
      match b.lists with
      | .error _ => []
      | .ok ls =>
        ls.flatMap fun l =>
          match l.cards with
          | .error _ => []
          | .ok cs =>
            cs.filterMap (dueFilter st today days_ahead b.name b.id l.name)

/-- Did this backend call succeed? -/
def exOk {α : Type} : Except Err α → Bool
  | .ok _ => true
  | .error _ => false

/-- All backend calls of the scan succeed. -/
def scanOkB (env : Env) : Bool :=
  match env.list_boards with
  | .error _ => false
  | .ok bs =>
    bs.all fun b =>
      match b.lists with
      | .error _ => false
      | .ok ls => ls.all fun l => exOk l.cards

theorem scanCards_eq (st : St) (today : DateTime) (k : Int)
    (bname bid lname : Str) (cs : List Card) :
    scanCards st today (addDays today k) bname bid lname cs
      = cs.filterMap (dueFilter st today k bname bid lname) := by
  induction cs with
  | nil => rfl
  | cons c cs ih =>
    rcases hd : c.due_date with _ | ds
    · simp [scanCards, List.filterMap_cons, dueFilter, hd, ih]
    · by_cases he : ds.isEmpty = true
      · simp [scanCards, List.filterMap_cons, dueFilter, hd, he, ih]
      · rcases hp : parseDue ds with _ | due
        · simp [scanCards, List.filterMap_cons, dueFilter, hd, he, hp, ih]
        · by_cases hin :
              (dtLe today due && dtLe due (addDays today k)) = true
          · simp [scanCards, List.filterMap_cons, dueFilter, hd, he, hp,
              hin, ih]
          · simp [scanCards, List.filterMap_cons, dueFilter, hd, he, hp,
              hin, ih]

theorem scanLists_eq (st : St) (today : DateTime) (k : Int)
    (bname bid : Str) (ls : List TList)
    (h : ∀ l ∈ ls, exOk l.cards = true) :
    scanLists st today (addDays today k) bname bid ls
      = .ok (ls.flatMap fun l =>
          match l.cards with
          | .error _ => []
          | .ok cs =>
            cs.filterMap (dueFilter st today k bname bid l.name)) := by
  induction ls with
  | nil => rfl
  | cons l ls ih =>
    have hl := h l (List.mem_cons_self _ _)
    rcases hc : l.cards with e | cs
    · rw [hc] at hl
      simp [exOk] at hl
    · unfold scanLists
      rw [hc, ih (fun l' hl' => h l' (List.mem_cons_of_mem _ hl'))]
      simp [List.flatMap_cons, hc, scanCards_eq]

theorem scanBoards_eq (st : St) (today : DateTime) (k : Int)
    (bs : List Board)
    (h : ∀ b ∈ bs, (match b.lists with
          | .error _ => false
          | .ok ls => ls.all fun l => exOk l.cards) = true) :
    scanBoards st today (addDays today k) bs
      = .ok (bs.flatMap fun b =>
          match b.lists with
          | .error _ => []
          | .ok ls =>
            ls.flatMap fun l =>
              match l.cards with
              | .error _ => []
              | .ok cs =>
                cs.filterMap
                  (dueFilter st today k b.name b.id l.name)) := by
  induction bs with
  | nil => rfl
  | cons b bs ih =>
    have hb := h b (List.mem_cons_self _ _)
    rcases hbl : b.lists with e | ls
    · rw [hbl] at hb
      simp at hb
    · rw [hbl] at hb
      have hls : ∀ l ∈ ls, exOk l.cards = true := by
        simpa [List.all_eq_true] using hb
      unfold scanBoards
      simp only [hbl]
      rw [scanLists_eq st today k b.name b.id ls hls,
        ih (fun b' h' => h b' (List.mem_cons_of_mem _ h'))]
      simp [List.flatMap_cons, hbl]

/-- C8: when the backend calls of the scan succeed,
`get_upcoming_due_cards(days_ahead)` returns exactly the cards whose
parsed due date lies in the closed interval
`[today, today + days_ahead days]`, in traversal order, skipping (not
failing on) cards whose due-date string is absent or does not
parse. -/
theorem C8_upcoming_due_scan (env : Env) (st : St) (today : DateTime)
    (k : Int) (hok : scanOkB env = true) :
    get_upcoming_due_cards env st today k
      = upcomingSpecCards env st today k := by
  unfold scanOkB at hok
  unfold get_upcoming_due_cards get_upcoming_due_cardsB upcomingSpecCards
  rcases hb : env.list_boards with e | bs
  · rw [hb] at hok
  · rw [hb] at hok
    have hall : ∀ b ∈ bs, (match b.lists with
        | .error _ => false
        | .ok ls => ls.all fun l => exOk l.cards) = true := by
      simpa [List.all_eq_true] using hok
    simp only [hb]
    rw [scanBoards_eq st today k bs hall]

/-- The cards and board of the C8 witness scenario: one card due in
one day, one due in ten days, one with an unparseable due string. -/
def cardDue1 : Card :=
  { id := ("c1").toList, name := ("Pay invoice").toList,
    url := ("u1").toList, board_id := ("b1").toList,
    due_date := some (("2026-10-13T12:00:00.000Z").toList) }

def cardDue10 : Card :=
  { id := ("c2").toList, name := ("File taxes").toList,
    url := ("u2").toList, board_id := ("b1").toList,
    due_date := some (("2026-10-22T12:00:00.000Z").toList) }

def cardBadDue : Card :=
  { id := ("c3").toList, name := ("Broken card").toList,
    url := ("u3").toList, board_id := ("b1").toList,
    due_date := some (("notadate").toList) }

def listWork : TList :=
  { id := ("l1").toList, name := ("Work").toList,
    cards := .ok [cardDue1, cardDue10, cardBadDue] }

def boardDue : Board :=
  { id := ("b1").toList, name := ("Main Board").toList,
    lists := .ok [listWork] }

def envDue : Env := { envMain with list_boards := .ok [boardDue] }

/-- C8 witness: with "now" = 2026-10-12 09:00, a card due in one day
and a card due in ten days, `days_ahead = 2` returns exactly the first
card; the unparseable due date is skipped, not fatal. -/
theorem C8_wit :
    get_upcoming_due_cards envDue {} dtNow 2
      = [{ card_id := ("c1").toList, card_name := ("Pay invoice").toList,
           card_url := ("u1").toList,
           due_date := ("2026-10-13T12:00:00.000Z").toList,
           board_name := ("Main Board").toList,
           list_name := ("Work").toList, channel_id := none }] :=
  (C8_upcoming_due_scan envDue {} dtNow 2 (by decide)).trans (by decide)

end Pennyworth
